import Mathlib

/-!
Verification of the wikidata-SIFT pipeline (`scripts/fetch_patrol_edits.py`,
`scripts/sift_precheck.py`, `scripts/run_verdict_fanout.py`) against its
natural-language specification.

The Python code is shallowly embedded: Python dicts become association
lists (insertion-ordered, replace-on-duplicate-key, like `dict`), Python
sets of pairs become duplicate-free lists, network I/O becomes an explicit
environment record whose functions return `Option` (`none` models a raised
exception or a non-200 response), and every network request actually issued
is collected in an explicit ghost trace so "no additional lookup" claims
are statable.
-/

namespace SIFT

/-! ## Association lists (the embedding of Python `dict`) -/

/-- First-match lookup, mirroring Python `d.get(k)`. -/
def lookupA {α : Type} : List (String × α) → String → Option α
  | [], _ => none
  | (k', v) :: rest, k => if k' = k then some v else lookupA rest k

/-- Key membership, mirroring Python `k in d`. -/
def containsA {α : Type} (l : List (String × α)) (k : String) : Bool :=
  (lookupA l k).isSome

/-- Python `d[k] = v`: replace in place if the key exists, else append. -/
def insertA {α : Type} : List (String × α) → String → α → List (String × α)
  | [], k, v => [(k, v)]
  | (k', v') :: rest, k, v =>
      if k' = k then (k, v) :: rest else (k', v') :: insertA rest k v

theorem lookupA_insertA_self {α : Type} (l : List (String × α)) (k : String) (v : α) :
    lookupA (insertA l k v) k = some v := by
  induction l with
  | nil => simp [insertA, lookupA]
  | cons hd tl ih =>
      obtain ⟨k', v'⟩ := hd
      by_cases h : k' = k
      · simp [insertA, h, lookupA]
      · simp [insertA, h, lookupA, ih]

theorem lookupA_insertA_ne {α : Type} (l : List (String × α)) (k k' : String) (v : α)
    (h : k ≠ k') : lookupA (insertA l k v) k' = lookupA l k' := by
  induction l with
  | nil => simp [insertA, lookupA, h]
  | cons hd tl ih =>
      obtain ⟨k₀, v₀⟩ := hd
      by_cases h₀ : k₀ = k
      · subst h₀
        simp [insertA, lookupA, h]
      · simp [insertA, h₀, lookupA, ih]

theorem containsA_insertA {α : Type} (l : List (String × α)) (k k' : String) (v : α)
    (h : containsA l k' = true) : containsA (insertA l k v) k' = true := by
  by_cases hk : k = k'
  · subst hk
    simp [containsA, lookupA_insertA_self]
  · simpa [containsA, lookupA_insertA_ne l k k' v hk] using h

theorem containsA_insertA_self {α : Type} (l : List (String × α)) (k : String) (v : α) :
    containsA (insertA l k v) k = true := by
  simp [containsA, lookupA_insertA_self]

/-! ## Label Resolution Cache (`LabelCache` in fetch_patrol_edits.py)

The cache maps an entity id to `(label, description)`, exactly the
`self._cache` dict of the source. The external Wikidata API is the
environment: `page eid` models `ItemPage`/`PropertyPage` + `page.get()`
(`none` = the lookup raised), and `batch ids` models one
`wbgetentities` request for a chunk (`none` = the request raised). -/

/-- A cache entry: English label and optional English description. -/
abbrev CacheEntry := String × Option String

/-- The `LabelCache._cache` dict. -/
abbrev LabelCache := List (String × CacheEntry)

/-- One network request issued by the cache (ghost trace). -/
inductive Request where
  | single (eid : String)
  | batch (ids : List String)
deriving DecidableEq, Repr

/-- The ids mentioned by a request. -/
def Request.ids : Request → List String
  | .single eid => [eid]
  | .batch l => l

/-- Page data returned by a successful `ItemPage`/`PropertyPage` fetch:
language-keyed labels and descriptions. -/
structure PageData where
  labels : List (String × String)
  descriptions : List (String × String)
deriving DecidableEq

/-- Per-entity payload of a successful `wbgetentities` response
(`entity_data["labels"]` flattened to language → value). -/
structure EntityData where
  labels : List (String × String)
  descriptions : List (String × String)
deriving DecidableEq

/-- The external Wikidata read API. `none` models a raised exception. -/
structure WikiEnv where
  page : String → Option PageData
  batch : List String → Option (List (String × EntityData))

/-- `LabelCache.resolve`: return the cached label, otherwise fetch the page;
on success take the English label (defaulting to the id), on failure fall
back to the id as its own label; cache the outcome either way. -/
def resolve (env : WikiEnv) (c : LabelCache) (eid : String) :
    String × LabelCache × List Request :=
  match lookupA c eid with
  | some entry => (entry.1, c, [])
  | none =>
      match env.page eid with
      | some pg =>
          let label := (lookupA pg.labels "en").getD eid
          let desc := lookupA pg.descriptions "en"
          (label, insertA c eid (label, desc), [Request.single eid])
      | none => (eid, insertA c eid (eid, none), [Request.single eid])

/-- `LabelCache.resolve_description`: resolve first if needed, then read the
cached description. -/
def resolve_description (env : WikiEnv) (c : LabelCache) (eid : String) :
    Option String × LabelCache × List Request :=
  let c' := if containsA c eid then (c, ([] : List Request))
            else (let r := resolve env c eid; (r.2.1, r.2.2))
  (((lookupA c'.1 eid).map (·.2)).join, c'.1, c'.2)

/-- `LabelCache.prime`: pre-populate the cache. -/
def prime (c : LabelCache) (eid : String) (label : String) (description : Option String) :
    LabelCache :=
  insertA c eid (label, description)

/-- Slicing loop for `chunks50`, structurally recursive on a fuel bound that
dominates the number of slices (`needed[i:i + 50]` for i = 0, 50, ...). -/
def chunksGo : Nat → List String → List (List String)
  | _, [] => []
  | 0, l => [l]
  | n + 1, x :: xs => ((x :: xs).take 50) :: chunksGo n ((x :: xs).drop 50)

/-- The batches of 50 taken by `resolve_batch` (`needed[i:i + 50]`). -/
def chunks50 (l : List String) : List (List String) :=
  chunksGo l.length l

/-- Caching of one successful `wbgetentities` response: for every entity in
the response store its English label (defaulting to the id) and optional
English description. -/
def cacheBatchResponse (c : LabelCache) (entities : List (String × EntityData)) : LabelCache :=
  entities.foldl
    (fun acc entry =>
      insertA acc entry.1
        ((lookupA entry.2.labels "en").getD entry.1, lookupA entry.2.descriptions "en"))
    c

/-- The `except` branch of `resolve_batch`: store every id of the failed chunk
that is still absent from the cache as its own label. -/
def cacheChunkFallback (c : LabelCache) (chunk : List String) : LabelCache :=
  chunk.foldl
    (fun acc eid => if containsA acc eid then acc else insertA acc eid (eid, none))
    c

/-- Processing of one chunk of `resolve_batch`: try the batched request,
falling back to id-as-label caching for the chunk if it raises. -/
def processChunk (env : WikiEnv) (c : LabelCache) (chunk : List String) : LabelCache :=
  match env.batch chunk with
  | some entities => cacheBatchResponse c entities
  | none => cacheChunkFallback c chunk

/-- `LabelCache.resolve_batch`: filter out already-cached ids, then issue one
`wbgetentities` request per chunk of 50, caching the response or falling back
per chunk. The request trace records every chunk actually sent. -/
def resolve_batch (env : WikiEnv) (c : LabelCache) (ids : List String) :
    LabelCache × List Request :=
  let needed := ids.filter (fun eid => !containsA c eid)
  if needed.isEmpty then (c, [])
  else
    (chunks50 needed).foldl
      (fun acc chunk => (processChunk env acc.1 chunk, acc.2 ++ [Request.batch chunk]))
      (c, [])

/-! ### Lemmas about the cache operations -/

theorem mem_of_mem_chunksGo :
    ∀ (n : Nat) (l : List String), ∀ c ∈ chunksGo n l, ∀ x ∈ c, x ∈ l := by
  intro n
  induction n with
  | zero =>
      intro l c hc x hx
      match l with
      | [] => simp [chunksGo] at hc
      | y :: ys =>
          have hch : chunksGo 0 (y :: ys) = [y :: ys] := rfl
          rw [hch] at hc
          simp at hc
          subst hc
          exact hx
  | succ n ih =>
      intro l c hc x hx
      match l with
      | [] => simp [chunksGo] at hc
      | y :: ys =>
          rw [chunksGo] at hc
          rcases List.mem_cons.mp hc with h | h
          · subst h
            exact List.mem_of_mem_take hx
          · exact List.mem_of_mem_drop (ih _ c h x hx)

theorem mem_of_mem_chunks50 (l : List String) :
    ∀ c ∈ chunks50 l, ∀ x ∈ c, x ∈ l :=
  mem_of_mem_chunksGo l.length l

theorem containsA_cacheBatchResponse (entities : List (String × EntityData))
    (c : LabelCache) (eid : String) (h : containsA c eid = true) :
    containsA (cacheBatchResponse c entities) eid = true := by
  induction entities generalizing c with
  | nil => simpa [cacheBatchResponse] using h
  | cons e rest ih =>
      simp only [cacheBatchResponse, List.foldl_cons] at *
      exact ih _ (containsA_insertA _ _ _ _ h)

theorem containsA_cacheChunkFallback_mono (chunk : List String)
    (c : LabelCache) (eid : String) (h : containsA c eid = true) :
    containsA (cacheChunkFallback c chunk) eid = true := by
  induction chunk generalizing c with
  | nil => simpa [cacheChunkFallback] using h
  | cons e rest ih =>
      simp only [cacheChunkFallback, List.foldl_cons] at *
      by_cases he : containsA c e
      · rw [if_pos he]
        exact ih _ h
      · rw [if_neg he]
        exact ih _ (containsA_insertA _ _ _ _ h)

theorem containsA_cacheChunkFallback_of_mem (chunk : List String)
    (c : LabelCache) (eid : String) (h : eid ∈ chunk) :
    containsA (cacheChunkFallback c chunk) eid = true := by
  induction chunk generalizing c with
  | nil => simp at h
  | cons e rest ih =>
      simp only [cacheChunkFallback, List.foldl_cons]
      rcases List.mem_cons.mp h with h | h
      · subst h
        by_cases he : containsA c eid
        · rw [if_pos he]
          exact containsA_cacheChunkFallback_mono rest c eid he
        · rw [if_neg he]
          exact containsA_cacheChunkFallback_mono rest _ eid
            (containsA_insertA_self c eid (eid, none))
      · by_cases he : containsA c e
        · rw [if_pos he]
          exact ih c h
        · rw [if_neg he]
          exact ih _ h

theorem lookupA_cacheChunkFallback_stable (l : List String) (c : LabelCache) (eid : String)
    (h : lookupA c eid = some (eid, none)) :
    lookupA (cacheChunkFallback c l) eid = some (eid, none) := by
  induction l generalizing c with
  | nil => simpa [cacheChunkFallback] using h
  | cons x xs ihx =>
      simp only [cacheChunkFallback, List.foldl_cons] at *
      by_cases hx : containsA c x
      · rw [if_pos hx]
        exact ihx c h
      · rw [if_neg hx]
        by_cases hxe : x = eid
        · subst hxe
          simp [containsA, h] at hx
        · exact ihx _ (by rw [lookupA_insertA_ne _ _ _ _ hxe]; exact h)

theorem lookupA_cacheChunkFallback_self (chunk : List String)
    (c : LabelCache) (eid : String) (hmem : eid ∈ chunk) (hmiss : lookupA c eid = none) :
    lookupA (cacheChunkFallback c chunk) eid = some (eid, none) := by
  induction chunk generalizing c with
  | nil => simp at hmem
  | cons e rest ih =>
      simp only [cacheChunkFallback, List.foldl_cons] at *
      rcases List.mem_cons.mp hmem with h | h
      · subst h
        rw [if_neg (by simp [containsA, hmiss])]
        exact lookupA_cacheChunkFallback_stable rest _ eid
          (lookupA_insertA_self c eid (eid, none))
      · by_cases he : containsA c e
        · rw [if_pos he]
          exact ih c h hmiss
        · rw [if_neg he]
          by_cases hee : e = eid
          · subst hee
            exact lookupA_cacheChunkFallback_stable rest _ e
              (lookupA_insertA_self c e (e, none))
          · exact ih _ h (by rw [lookupA_insertA_ne _ _ _ _ hee]; exact hmiss)

theorem containsA_processChunk_mono (env : WikiEnv) (chunk : List String)
    (c : LabelCache) (eid : String) (h : containsA c eid = true) :
    containsA (processChunk env c chunk) eid = true := by
  unfold processChunk
  cases env.batch chunk with
  | some entities => exact containsA_cacheBatchResponse entities c eid h
  | none => exact containsA_cacheChunkFallback_mono chunk c eid h

theorem containsA_foldl_processChunk_mono (env : WikiEnv) (chunks : List (List String))
    (c : LabelCache) (eid : String) (h : containsA c eid = true) :
    containsA (chunks.foldl (processChunk env) c) eid = true := by
  induction chunks generalizing c with
  | nil => simpa using h
  | cons ch rest ih =>
      simp only [List.foldl_cons]
      exact ih _ (containsA_processChunk_mono env ch c eid h)

theorem foldl_processChunk_trace (env : WikiEnv) (chunks : List (List String))
    (c : LabelCache) (reqs : List Request) :
    (chunks.foldl
        (fun acc chunk => (processChunk env acc.1 chunk, acc.2 ++ [Request.batch chunk]))
        (c, reqs))
      = (chunks.foldl (processChunk env) c, reqs ++ chunks.map Request.batch) := by
  induction chunks generalizing c reqs with
  | nil => simp
  | cons ch rest ih =>
      simp only [List.foldl_cons, List.map_cons]
      rw [ih]
      simp

theorem resolve_batch_cache_eq (env : WikiEnv) (c : LabelCache) (ids : List String) :
    (resolve_batch env c ids).1
      = (chunks50 (ids.filter (fun eid => !containsA c eid))).foldl (processChunk env) c := by
  unfold resolve_batch
  by_cases h : (ids.filter (fun eid => !containsA c eid)).isEmpty
  · rw [if_pos h]
    rw [List.isEmpty_iff] at h
    rw [h]
    simp [chunks50, chunksGo]
  · rw [if_neg h, foldl_processChunk_trace]

theorem resolve_batch_trace_eq (env : WikiEnv) (c : LabelCache) (ids : List String) :
    (resolve_batch env c ids).2
      = (chunks50 (ids.filter (fun eid => !containsA c eid))).map Request.batch := by
  unfold resolve_batch
  by_cases h : (ids.filter (fun eid => !containsA c eid)).isEmpty
  · rw [if_pos h]
    rw [List.isEmpty_iff] at h
    rw [h]
    simp [chunks50, chunksGo]
  · rw [if_neg h, foldl_processChunk_trace]
    simp

theorem containsA_foldl_processChunk_of_mem (env : WikiEnv) (chunks : List (List String))
    (c : LabelCache) (chunk : List String) (hmem : chunk ∈ chunks)
    (hfail : env.batch chunk = none) (eid : String) (heid : eid ∈ chunk) :
    containsA (chunks.foldl (processChunk env) c) eid = true := by
  induction chunks generalizing c with
  | nil => simp at hmem
  | cons ch rest ih =>
      simp only [List.foldl_cons]
      rcases List.mem_cons.mp hmem with h | h
      · subst h
        refine containsA_foldl_processChunk_mono env rest _ eid ?_
        unfold processChunk
        rw [hfail]
        exact containsA_cacheChunkFallback_of_mem chunk c eid heid
      · exact ih _ h

/-! ### Claim theorems for the Label Resolution Cache -/

/-- C8: label resolution never raises to its caller. If the single page
lookup in `resolve` fails, the identifier is cached and returned as its own
label. `resolve_batch` issues exactly one batched request per chunk of the
uncached ids (so later chunks are still attempted after an earlier chunk
fails), every id of a failed chunk ends up in the final cache, and a
still-unresolved id of a failed chunk is cached as its own label. -/
theorem label_resolution_never_raises :
    (∀ (env : WikiEnv) (c : LabelCache) (eid : String),
        env.page eid = none → lookupA c eid = none →
        resolve env c eid = (eid, insertA c eid (eid, none), [Request.single eid])) ∧
    (∀ (env : WikiEnv) (c : LabelCache) (ids : List String),
        (resolve_batch env c ids).2
          = (chunks50 (ids.filter (fun eid => !containsA c eid))).map Request.batch) ∧
    (∀ (env : WikiEnv) (c : LabelCache) (ids : List String) (chunk : List String),
        chunk ∈ chunks50 (ids.filter (fun eid => !containsA c eid)) →
        env.batch chunk = none →
        ∀ eid ∈ chunk, containsA (resolve_batch env c ids).1 eid = true) ∧
    (∀ (env : WikiEnv) (c : LabelCache) (chunk : List String),
        env.batch chunk = none →
        ∀ eid ∈ chunk, lookupA c eid = none →
        lookupA (processChunk env c chunk) eid = some (eid, none)) := by
  refine ⟨?_, ?_, ?_, ?_⟩
  · intro env c eid hpage hmiss
    unfold resolve
    rw [hmiss, hpage]
  · intro env c ids
    exact resolve_batch_trace_eq env c ids
  · intro env c ids chunk hmem hfail eid heid
    rw [resolve_batch_cache_eq]
    exact containsA_foldl_processChunk_of_mem env _ c chunk hmem hfail eid heid
  · intro env c chunk hfail eid heid hmiss
    unfold processChunk
    rw [hfail]
    exact lookupA_cacheChunkFallback_self chunk c eid heid hmiss

/-- Concrete instantiation of C8: an environment in which every request
raises still yields the id itself as the label, both for `resolve` and for a
failed `resolve_batch` chunk. -/
theorem label_resolution_never_raises_witness :
    resolve ⟨fun _ => none, fun _ => none⟩ [] "Q7"
        = ("Q7", [("Q7", ("Q7", none))], [Request.single "Q7"]) ∧
    containsA (resolve_batch ⟨fun _ => none, fun _ => none⟩ [] ["Q1", "Q2"]).1 "Q2" = true := by
  constructor
  · exact label_resolution_never_raises.1 ⟨fun _ => none, fun _ => none⟩ [] "Q7" rfl rfl
  · exact label_resolution_never_raises.2.2.1 ⟨fun _ => none, fun _ => none⟩ [] ["Q1", "Q2"]
      ["Q1", "Q2"] (by decide) rfl "Q2" (by decide)

/-- C9: an id cached by `resolve_batch` is served from the cache afterwards:
a later `resolve` for it returns the cached label with an unchanged cache and
no network request, and a later `resolve_batch` filters it out before issuing
any request, so no issued request mentions it. -/
theorem resolve_batch_idempotent_caching :
    ∀ (env : WikiEnv) (c : LabelCache) (ids : List String) (eid : String),
      containsA (resolve_batch env c ids).1 eid = true →
      (∃ entry, lookupA (resolve_batch env c ids).1 eid = some entry ∧
          resolve env (resolve_batch env c ids).1 eid
            = (entry.1, (resolve_batch env c ids).1, [])) ∧
      (∀ (ids2 : List String) (req : Request),
          req ∈ (resolve_batch env (resolve_batch env c ids).1 ids2).2 → eid ∉ req.ids) := by
  intro env c ids eid h
  obtain ⟨entry, hentry⟩ := Option.isSome_iff_exists.mp h
  constructor
  · refine ⟨entry, hentry, ?_⟩
    unfold resolve
    rw [hentry]
  · intro ids2 req hreq heid
    rw [resolve_batch_trace_eq] at hreq
    obtain ⟨chunk, hchunk, rfl⟩ := List.mem_map.mp hreq
    have hneed : eid ∈ ids2.filter
        (fun e => !containsA (resolve_batch env c ids).1 e) :=
      mem_of_mem_chunks50 _ chunk hchunk eid heid
    have := (List.mem_filter.mp hneed).2
    rw [h] at this
    simp at this

/-- Concrete instantiation of C9: after a batch that cached "Q1", resolving
"Q1" issues no request, and a second batch never mentions "Q1" in a request. -/
theorem resolve_batch_idempotent_caching_witness :
    (resolve ⟨fun _ => none, fun _ => none⟩
        (resolve_batch ⟨fun _ => none, fun _ => none⟩ [] ["Q1"]).1 "Q1").2.2
      = ([] : List Request) := by
  obtain ⟨⟨entry, hl, hr⟩, h2⟩ :=
    resolve_batch_idempotent_caching ⟨fun _ => none, fun _ => none⟩ [] ["Q1"] "Q1" (by decide)
  rw [hr]

/-- C4 (code bug): the source `resolve` takes `page.labels.get("en", entity_id)`
and `resolve_batch` takes `labels.get("en", \x7b\x7d).get("value", eid)`, so an
entity whose only label is German resolves to its bare identifier — there is no
`"<value> [<lang-code>]"` fallback, although the repository tests
(`test_fallback_to_non_english_label`) expect `"Mensch [de]"`. This theorem
evaluates the embedded code at that failing input. -/
theorem resolve_drops_non_english_labels :
    (resolve
        ⟨fun eid => if eid = "Q5" then some ⟨[("de", "Mensch")], []⟩ else none,
         fun _ => some [("Q5", ⟨[("de", "Mensch")], []⟩)]⟩
        [] "Q5").1 = "Q5" ∧
    lookupA (resolve_batch
        ⟨fun eid => if eid = "Q5" then some ⟨[("de", "Mensch")], []⟩ else none,
         fun _ => some [("Q5", ⟨[("de", "Mensch")], []⟩)]⟩
        [] ["Q5"]).1 "Q5" = some ("Q5", none) ∧
    "Q5" ≠ "Mensch [de]" := by
  refine ⟨by decide, by decide, by decide⟩

/-! ## Revision Diff Engine (fetch_patrol_edits.py)

Raw Wikibase claims are embedded as a closed tagged-variant type for the
dynamic `datavalue` shapes, and serialized statements mirror the dicts
produced by `serialize_statement`. The reference/qualifier snak lists are
embedded as head-plus-tail pairs because the source indexes `snaks[0]`
unconditionally (a non-empty list is an input invariant of the API shape).
Latitude/longitude are already strings here (their float formatting plays no
role in any verified property). -/

/-- The dynamic `datavalue` payloads dispatched on by `extract_snak_value`. -/
inductive Datavalue where
  | entityid (id : Option String) (entityType : String) (numericId : Nat)
  | time (t : String)
  | quantity (amount : String)
  | string (s : String)
  | globecoordinate (latitude longitude : String)
  | monolingualtext (text : String)
  | other (stringified : String)
deriving DecidableEq, Repr

/-- A Wikibase snak; `datavalue := none` models a missing `datavalue` key
(the final `str(val)` branch then stringifies Python `None`). -/
structure Snak where
  snaktype : String
  datavalue : Option Datavalue
deriving DecidableEq, Repr

/-- A raw claim as found in the `claims` dict of an entity revision.
`rank := none` models a missing `rank` key (defaulted to `"normal"`). -/
structure RawClaim where
  id : String
  mainsnak : Snak
  rank : Option String
  references : List (List (String × Snak × List Snak))
  qualifiers : List (String × Snak × List Snak)
deriving DecidableEq, Repr

/-- An entity revision as used by the diff engine: its `claims` dict. -/
structure Entity where
  claims : List (String × List RawClaim)
deriving DecidableEq, Repr

/-- One serialized reference or qualifier entry
(`\x7bproperty_label, value, value_label\x7d`). -/
structure RefEntry where
  property_label : String
  value : String
  value_label : Option String
deriving DecidableEq, Repr

/-- A serialized statement as produced by `serialize_statement`. -/
structure SerStmt where
  value : String
  value_label : Option String
  rank : String
  references : List (List (String × RefEntry))
  qualifiers : List (String × RefEntry)
deriving DecidableEq, Repr

/-- `extract_snak_value`: value plus optional resolved label from one snak. -/
def extract_snak_value (env : WikiEnv) (c : LabelCache) (snak : Snak) :
    (String × Option String) × LabelCache × List Request :=
  if snak.snaktype ≠ "value" then ((snak.snaktype, none), c, [])
  else
    match snak.datavalue with
    | some (.entityid ido entityType numericId) =>
        let entity_id :=
          match ido with
          | some i => i
          | none => (if entityType = "property" then "P" else "Q") ++ toString numericId
        let r := resolve env c entity_id
        ((entity_id, some r.1), r.2.1, r.2.2)
    | some (.time t) => ((t, none), c, [])
    | some (.quantity amount) => ((amount, none), c, [])
    | some (.string s) => ((s, none), c, [])
    | some (.globecoordinate latitude longitude) =>
        ((latitude ++ "," ++ longitude, none), c, [])
    | some (.monolingualtext text) => ((text, none), c, [])
    | some (.other s) => ((s, none), c, [])
    | none => (("None", none), c, [])

/-- Serialization of one reference block of `serialize_statement`: for each
property key, extract the first snak value then resolve the property label. -/
def serialize_ref_block (env : WikiEnv) (c : LabelCache)
    (block : List (String × Snak × List Snak)) :
    List (String × RefEntry) × LabelCache × List Request :=
  block.foldl
    (fun acc entry =>
      let v := extract_snak_value env acc.2.1 entry.2.1
      let pl := resolve env v.2.1 entry.1
      (acc.1 ++ [(entry.1,
          { property_label := pl.1, value := v.1.1, value_label := v.1.2 })],
       pl.2.1, acc.2.2 ++ v.2.2 ++ pl.2.2))
    ([], c, [])

/-- `serialize_statement`: main value, rank, references, qualifiers with
resolved labels, threading the label cache exactly in source order. -/
def serialize_statement (env : WikiEnv) (c : LabelCache) (claim : RawClaim) :
    SerStmt × LabelCache × List Request :=
  let mv := extract_snak_value env c claim.mainsnak
  let refs := claim.references.foldl
    (fun acc block =>
      let rb := serialize_ref_block env acc.2.1 block
      (acc.1 ++ [rb.1], rb.2.1, acc.2.2 ++ rb.2.2))
    ([], mv.2.1, [])
  let quals := claim.qualifiers.foldl
    (fun acc entry =>
      let qv := extract_snak_value env acc.2.1 entry.2.1
      let qpl := resolve env qv.2.1 entry.1
      (acc.1 ++ [(entry.1,
          { property_label := qpl.1, value := qv.1.1, value_label := qv.1.2 })],
       qpl.2.1, acc.2.2 ++ qv.2.2 ++ qpl.2.2))
    ([], refs.2.1, [])
  ({ value := mv.1.1, value_label := mv.1.2, rank := claim.rank.getD "normal",
     references := refs.1, qualifiers := quals.1 },
   quals.2.1, mv.2.2 ++ refs.2.2 ++ quals.2.2)

/-- The `OPERATION_TO_DIFF_TYPE` mapping from Wikibase operation names to
coarse diff types. -/
def OPERATION_TO_DIFF_TYPE : List (String × String) :=
  [("wbsetclaim-create", "statement_added"),
   ("wbcreateclaim-create", "statement_added"),
   ("wbremoveclaims-remove", "statement_removed"),
   ("wbsetclaim-update", "value_changed"),
   ("wbsetclaimvalue", "value_changed"),
   ("wbsetreference-add", "reference_added"),
   ("wbsetreference-set", "reference_changed"),
   ("wbremovereferences-remove", "reference_removed"),
   ("wbsetqualifier-add", "qualifier_added"),
   ("wbsetqualifier-update", "qualifier_changed"),
   ("wbremovequalifiers-remove", "qualifier_removed")]

/-- `_refine_diff_type`: distinguish value / reference / qualifier / rank
changes between two serialized statements. -/
def refine_diff_type (old_stmt new_stmt : SerStmt) : String :=
  if old_stmt.value ≠ new_stmt.value then "value_changed"
  else if old_stmt.references ≠ new_stmt.references ∧
      old_stmt.qualifiers = new_stmt.qualifiers ∧ old_stmt.rank = new_stmt.rank then
    if old_stmt.references = [] ∧ new_stmt.references ≠ [] then "reference_added"
    else if old_stmt.references ≠ [] ∧ new_stmt.references = [] then "reference_removed"
    else "reference_changed"
  else if old_stmt.qualifiers ≠ new_stmt.qualifiers ∧
      old_stmt.references = new_stmt.references ∧ old_stmt.rank = new_stmt.rank then
    if old_stmt.qualifiers = [] ∧ new_stmt.qualifiers ≠ [] then "qualifier_added"
    else if old_stmt.qualifiers ≠ [] ∧ new_stmt.qualifiers = [] then "qualifier_removed"
    else "qualifier_changed"
  else if old_stmt.rank ≠ new_stmt.rank ∧
      old_stmt.references = new_stmt.references ∧
      old_stmt.qualifiers = new_stmt.qualifiers then "rank_changed"
  else "value_changed"

/-- The parsed edit summary (`parse_edit_summary` output). -/
structure ParsedEdit where
  operation : String
  property : String
  value_raw : Option String
deriving DecidableEq, Repr

/-- The record returned by `compute_edit_diff`. -/
structure DiffRecord where
  type : String
  property : String
  property_label : String
  old_value : Option SerStmt
  new_value : Option SerStmt
deriving DecidableEq, Repr

/-- `\x7bc["id"]: c for c in claims\x7d`: a dict keyed by statement id. -/
def dict_by_id (cs : List RawClaim) : List (String × RawClaim) :=
  cs.foldl (fun acc cl => insertA acc cl.id cl) []

/-- The old/new serialized values picked by `compute_edit_diff`, by branch on
the coarse diff type. Python iterates id *sets* here whose order is
unspecified; the embedding deterministically picks the first entry in dict
insertion order (the nondeterminism is documented in the spec and none of the
verified properties depend on the pick). -/
def diff_values (env : WikiEnv) (c : LabelCache) (diff_type : String)
    (old_by_id new_by_id : List (String × RawClaim)) :
    Option SerStmt × Option SerStmt × LabelCache × List Request :=
  if diff_type = "statement_added" then
    match new_by_id.filter (fun kv => !containsA old_by_id kv.1) with
    | [] => (none, none, c, [])
    | kv :: _ =>
        let s := serialize_statement env c kv.2
        (none, some s.1, s.2.1, s.2.2)
  else if diff_type = "statement_removed" then
    match old_by_id.filter (fun kv => !containsA new_by_id kv.1) with
    | [] => (none, none, c, [])
    | kv :: _ =>
        let s := serialize_statement env c kv.2
        (some s.1, none, s.2.1, s.2.2)
  else
    match old_by_id.filter (fun kv => containsA new_by_id kv.1) with
    | kv :: _ =>
        match lookupA new_by_id kv.1 with
        | some clNew =>
            let so := serialize_statement env c kv.2
            let sn := serialize_statement env so.2.1 clNew
            (some so.1, some sn.1, sn.2.1, so.2.2 ++ sn.2.2)
        | none => (none, none, c, [])
    | [] =>
        match new_by_id with
        | kv :: _ =>
            let s := serialize_statement env c kv.2
            (none, some s.1, s.2.1, s.2.2)
        | [] => (none, none, c, [])

/-- `compute_edit_diff`: compare the touched property of two entity revisions,
returning a classified diff record (`none` iff the edit summary was not
parsed). -/
def compute_edit_diff (env : WikiEnv) (c : LabelCache) (old_entity new_entity : Entity)
    (parsed_edit : Option ParsedEdit) :
    Option DiffRecord × LabelCache × List Request :=
  match parsed_edit with
  | none => (none, c, [])
  | some p =>
      let diff_type := (lookupA OPERATION_TO_DIFF_TYPE p.operation).getD "unknown"
      let old_claims := (lookupA old_entity.claims p.property).getD []
      let new_claims := (lookupA new_entity.claims p.property).getD []
      let vals := diff_values env c diff_type (dict_by_id old_claims) (dict_by_id new_claims)
      let diff_type2 :=
        if diff_type = "value_changed" then
          match vals.1, vals.2.1 with
          | some ov, some nv => refine_diff_type ov nv
          | _, _ => diff_type
        else diff_type
      let pl := resolve env vals.2.2.1 p.property
      (some { type := diff_type2, property := p.property, property_label := pl.1,
              old_value := vals.1, new_value := vals.2.1 },
       pl.2.1, vals.2.2.2 ++ pl.2.2)

/-- `find_removed_claims`: claims of the property present in the old entity
whose statement id is absent from the new entity. -/
def find_removed_claims (old_entity new_entity : Entity) (property_id : String) :
    List RawClaim :=
  let old_claims := (lookupA old_entity.claims property_id).getD []
  let new_claims := (lookupA new_entity.claims property_id).getD []
  old_claims.filter (fun cl => !(new_claims.map (·.id)).contains cl.id)

/-! ### Lemmas and claim theorems for the diff engine -/

theorem refine_diff_type_ne_statement_kinds (o n : SerStmt) :
    refine_diff_type o n ≠ "statement_added" ∧
    refine_diff_type o n ≠ "statement_removed" := by
  unfold refine_diff_type
  split_ifs <;> exact ⟨by decide, by decide⟩

/-- C6: whenever the serialized values differ, the refined diff
classification is `value_changed`, no matter what else changed. -/
theorem value_change_has_priority (old_stmt new_stmt : SerStmt)
    (h : old_stmt.value ≠ new_stmt.value) :
    refine_diff_type old_stmt new_stmt = "value_changed" := by
  unfold refine_diff_type
  rw [if_pos h]

/-- Concrete instantiation of C6: a changed value together with a changed
reference list still classifies as `value_changed`. -/
theorem value_change_has_priority_witness :
    refine_diff_type ⟨"Q42", none, "normal", [], []⟩
        ⟨"Q5", none, "preferred", [[("P248", ⟨"stated in", "Q1", none⟩)]], []⟩
      = "value_changed" :=
  value_change_has_priority ⟨"Q42", none, "normal", [], []⟩
    ⟨"Q5", none, "preferred", [[("P248", ⟨"stated in", "Q1", none⟩)]], []⟩ (by decide)

/-- C7: when only the reference list changed (value, qualifiers, rank all
unchanged), the classification is `reference_added` iff the old reference
list is empty and the new one non-empty, `reference_removed` iff the
reverse, and `reference_changed` otherwise (both non-empty). -/
theorem reference_only_change_classification (o n : SerStmt)
    (hv : o.value = n.value) (hq : o.qualifiers = n.qualifiers) (hr : o.rank = n.rank)
    (href : o.references ≠ n.references) :
    (refine_diff_type o n = "reference_added" ↔
        o.references = [] ∧ n.references ≠ []) ∧
    (refine_diff_type o n = "reference_removed" ↔
        o.references ≠ [] ∧ n.references = []) ∧
    (refine_diff_type o n = "reference_changed" ↔
        o.references ≠ [] ∧ n.references ≠ []) := by
  unfold refine_diff_type
  rw [if_neg (fun hne => hne hv), if_pos ⟨href, hq, hr⟩]
  by_cases ho : o.references = []
  · by_cases hn : n.references = []
    · exact absurd (ho.trans hn.symm) href
    · rw [if_pos ⟨ho, hn⟩]
      exact ⟨⟨fun _ => ⟨ho, hn⟩, fun _ => rfl⟩,
             ⟨fun h => absurd h (by decide), fun h => absurd ho h.1⟩,
             ⟨fun h => absurd h (by decide), fun h => absurd ho h.1⟩⟩
  · by_cases hn : n.references = []
    · rw [if_neg (fun hc => ho hc.1), if_pos ⟨ho, hn⟩]
      exact ⟨⟨fun h => absurd h (by decide), fun h => absurd h.1 ho⟩,
             ⟨fun _ => ⟨ho, hn⟩, fun _ => rfl⟩,
             ⟨fun h => absurd h (by decide), fun h => absurd hn h.2⟩⟩
    · rw [if_neg (fun hc => ho hc.1), if_neg (fun hc => hn hc.2)]
      exact ⟨⟨fun h => absurd h (by decide), fun h => absurd h.1 ho⟩,
             ⟨fun h => absurd h (by decide), fun h => absurd h.2 hn⟩,
             ⟨fun _ => ⟨ho, hn⟩, fun _ => rfl⟩⟩

/-- Concrete instantiation of C7: adding a first reference with an unchanged
value, qualifiers and rank classifies as `reference_added`. -/
theorem reference_only_change_classification_witness :
    refine_diff_type ⟨"Q42", none, "normal", [], []⟩
        ⟨"Q42", none, "normal", [[("P248", ⟨"stated in", "Q1", none⟩)]], []⟩
      = "reference_added" :=
  (reference_only_change_classification ⟨"Q42", none, "normal", [], []⟩
      ⟨"Q42", none, "normal", [[("P248", ⟨"stated in", "Q1", none⟩)]], []⟩
      rfl rfl rfl (by decide)).1.mpr ⟨rfl, by decide⟩

theorem diff_values_added_old_none (env : WikiEnv) (c : LabelCache)
    (ob nb : List (String × RawClaim)) :
    (diff_values env c "statement_added" ob nb).1 = none := by
  unfold diff_values
  rw [if_pos rfl]
  cases nb.filter (fun kv => !containsA ob kv.1) <;> rfl

theorem diff_values_removed_new_none (env : WikiEnv) (c : LabelCache)
    (ob nb : List (String × RawClaim)) :
    (diff_values env c "statement_removed" ob nb).2.1 = none := by
  unfold diff_values
  rw [if_neg (by decide), if_pos rfl]
  cases ob.filter (fun kv => !containsA nb kv.1) <;> rfl

theorem diff_values_change_old_some_new_some (env : WikiEnv) (c : LabelCache)
    (dt : String) (ob nb : List (String × RawClaim))
    (h1 : dt ≠ "statement_added") (h2 : dt ≠ "statement_removed")
    (h : (diff_values env c dt ob nb).1.isSome = true) :
    (diff_values env c dt ob nb).2.1.isSome = true := by
  unfold diff_values at h ⊢
  rw [if_neg h1, if_neg h2] at h ⊢
  rcases hf : ob.filter (fun kv => containsA nb kv.1) with _ | ⟨kv, rest⟩
  · simp only [hf] at h
    cases hn : nb with
    | nil => rw [hn] at h; simp at h
    | cons kv2 rest2 => rw [hn] at h; simp at h
  · simp only [hf] at h ⊢
    cases hl : lookupA nb kv.1 with
    | some clNew => simp only [hl]; simp
    | none => simp only [hl] at h; simp at h

/-- C2 (counterexample input): an environment in which every request raises,
used only to evaluate the pure structure of the diff. -/
def env0 : WikiEnv := ⟨fun _ => none, fun _ => none⟩

/-- C2 (counterexample input): an entity carrying one plain string statement. -/
def entOneClaim : Entity :=
  ⟨[("P1", [⟨"s1", ⟨"value", some (.string "x")⟩, some "normal", [], []⟩])]⟩

/-- C2 (counterexample input): an entity with no claims at all. -/
def entNoClaims : Entity := ⟨[]⟩

/-- C2 (counterexample): a `wbsetclaimvalue` edit whose old snapshot has no
statement for the property takes the no-common-id fallback of
`compute_edit_diff`: the record's type is the change kind `value_changed`
while `old_value` is absent — refuting the claim that change-kind records
always carry both values. -/
theorem compute_edit_diff_change_kind_missing_old :
    ((compute_edit_diff env0 [] entNoClaims entOneClaim
          (some ⟨"wbsetclaimvalue", "P1", none⟩)).1.map
        (fun r => (r.type, r.old_value, r.new_value.isSome)))
      = some ("value_changed", none, true) := by decide

/-- C2 (amended): in every record produced by `compute_edit_diff`,
`statement_added` records never carry an `old_value`, `statement_removed`
records never carry a `new_value`, and a change-kind record carrying an
`old_value` also carries a `new_value`; but a change-kind record may carry a
`new_value` alone (no-common-id fallback) or neither value. -/
theorem compute_edit_diff_value_presence (env : WikiEnv) (c : LabelCache)
    (old_entity new_entity : Entity) (p : ParsedEdit) (rec : DiffRecord)
    (h : (compute_edit_diff env c old_entity new_entity (some p)).1 = some rec) :
    (rec.type = "statement_added" → rec.old_value = none) ∧
    (rec.type = "statement_removed" → rec.new_value = none) ∧
    (rec.old_value.isSome = true → rec.new_value.isSome = true ∨
        rec.type = "statement_removed") := by
  simp only [compute_edit_diff] at h
  rw [Option.some_inj] at h
  subst h
  generalize (lookupA OPERATION_TO_DIFF_TYPE p.operation).getD "unknown" = dt
  generalize dict_by_id ((lookupA old_entity.claims p.property).getD []) = ob
  generalize dict_by_id ((lookupA new_entity.claims p.property).getD []) = nb
  by_cases hadd : dt = "statement_added"
  · subst hadd
    refine ⟨fun _ => diff_values_added_old_none env c ob nb, fun ht => ?_, fun ho => ?_⟩
    · exact absurd (show ("statement_added" : String) = "statement_removed" from ht)
        (by decide)
    · exfalso
      have ho' : (diff_values env c "statement_added" ob nb).1.isSome = true := ho
      rw [diff_values_added_old_none env c ob nb] at ho'
      simp at ho'
  · by_cases hrem : dt = "statement_removed"
    · subst hrem
      refine ⟨fun ht => ?_, fun _ => diff_values_removed_new_none env c ob nb,
        fun _ => Or.inr rfl⟩
      exact absurd (show ("statement_removed" : String) = "statement_added" from ht)
        (by decide)
    · have hko := diff_values_change_old_some_new_some env c dt ob nb hadd hrem
      by_cases hvc : dt = "value_changed"
      · subst hvc
        refine ⟨fun ht => ?_, fun ht => ?_, fun ho => Or.inl (hko ho)⟩
        · have ht' : (match (diff_values env c "value_changed" ob nb).1,
                (diff_values env c "value_changed" ob nb).2.1 with
              | some ov, some nv => refine_diff_type ov nv
              | _, _ => "value_changed") = "statement_added" := ht
          rcases h1 : (diff_values env c "value_changed" ob nb).1 with _ | ov <;>
            rcases h2 : (diff_values env c "value_changed" ob nb).2.1 with _ | nv <;>
              rw [h1, h2] at ht' <;> simp at ht'
          all_goals
            first
            | exact absurd ht' (by decide)
            | exact absurd ht' (refine_diff_type_ne_statement_kinds ov nv).1
        · have ht' : (match (diff_values env c "value_changed" ob nb).1,
                (diff_values env c "value_changed" ob nb).2.1 with
              | some ov, some nv => refine_diff_type ov nv
              | _, _ => "value_changed") = "statement_removed" := ht
          rcases h1 : (diff_values env c "value_changed" ob nb).1 with _ | ov <;>
            rcases h2 : (diff_values env c "value_changed" ob nb).2.1 with _ | nv <;>
              rw [h1, h2] at ht' <;> simp at ht'
          all_goals
            first
            | exact absurd ht' (by decide)
            | exact absurd ht' (refine_diff_type_ne_statement_kinds ov nv).2
      · refine ⟨fun ht => ?_, fun ht => ?_, fun ho => Or.inl (hko ho)⟩
        · have ht' : (if dt = "value_changed" then
                (match (diff_values env c dt ob nb).1,
                    (diff_values env c dt ob nb).2.1 with
                  | some ov, some nv => refine_diff_type ov nv
                  | _, _ => dt)
              else dt) = "statement_added" := ht
          rw [if_neg hvc] at ht'
          exact absurd ht' hadd
        · have ht' : (if dt = "value_changed" then
                (match (diff_values env c dt ob nb).1,
                    (diff_values env c dt ob nb).2.1 with
                  | some ov, some nv => refine_diff_type ov nv
                  | _, _ => dt)
              else dt) = "statement_removed" := ht
          rw [if_neg hvc] at ht'
          exact absurd ht' hrem

/-- Concrete instantiation of C2 (amended): a removal edit produces a record
with an absent `new_value`. -/
theorem compute_edit_diff_value_presence_witness :
    (compute_edit_diff env0 [] entOneClaim entNoClaims
        (some ⟨"wbremoveclaims-remove", "P1", none⟩)).1
      = some ⟨"statement_removed", "P1", "P1", some ⟨"x", none, "normal", [], []⟩, none⟩ ∧
    (⟨"statement_removed", "P1", "P1", some ⟨"x", none, "normal", [], []⟩, none⟩
        : DiffRecord).new_value = none := by
  have hrec : (compute_edit_diff env0 [] entOneClaim entNoClaims
        (some ⟨"wbremoveclaims-remove", "P1", none⟩)).1
      = some ⟨"statement_removed", "P1", "P1", some ⟨"x", none, "normal", [], []⟩, none⟩ := by
    decide
  exact ⟨hrec,
    (compute_edit_diff_value_presence env0 [] entOneClaim entNoClaims
        ⟨"wbremoveclaims-remove", "P1", none⟩ _ hrec).2.1 rfl⟩

/-! ## Verification Question Generator (sift_precheck.py)

Enriched edits are embedded with the fields the precheck reads. Following
Python truthiness, a missing or `None` string field is embedded as `""`
(`parsed.get(k, "")`), and a missing/falsy `parsed_edit`, `item`, or
`edit_diff.type` as `none`. -/

/-- The view of `parsed_edit` read by the precheck (missing keys are `""`). -/
structure PrecheckParsed where
  operation : String
  property : String
  property_label : String
  value_raw : String
  value_label : String
deriving DecidableEq, Repr

/-- One property entry of the serialized `item.claims` dict. -/
structure PropEntry where
  property_label : String
  statements : List SerStmt
deriving DecidableEq, Repr

/-- The view of `item` read by the precheck and question builder. -/
structure ItemView where
  label_en : Option String
  claims : List (String × PropEntry)
deriving DecidableEq, Repr

/-- The edit record consumed by `sift_precheck` functions. `edit_diff_type`
is the value of `edit.get("edit_diff", ...).get("type")` with `none` for a
missing or falsy value. -/
structure PrecheckEdit where
  title : Option String
  parsed_edit : Option PrecheckParsed
  item : Option ItemView
  edit_diff_type : Option String
deriving DecidableEq, Repr

/-- `_HUMAN_CLASSES`: P31 values indicating a person entity. -/
def HUMAN_CLASSES : List String := ["Q5", "Q15632617"]

/-- `_NOT_PERSON_VALUES`: known-bad P31/P279 values. -/
def NOT_PERSON_VALUES : List String :=
  ["Q6545185", "Q19847637", "Q18616576", "Q29934200"]

/-- `check_ontological_consistency`: flag obvious P31/P279 mismatches,
returning a list of warning strings (empty when the property is neither P31
nor P279). -/
def check_ontological_consistency (edit : PrecheckEdit) : List String :=
  let parsed := edit.parsed_edit
  let prop := match parsed with | some pe => pe.property | none => ""
  let value_raw := match parsed with | some pe => pe.value_raw | none => ""
  let value_label := match parsed with | some pe => pe.value_label | none => ""
  if prop ≠ "P31" ∧ prop ≠ "P279" then []
  else
    let claims := match edit.item with | some it => it.claims | none => []
    let existing_p31 :=
      ((lookupA claims "P31").map (·.statements)).getD [] |>.filterMap
        (fun stmt => if stmt.value.startsWith "Q" then some stmt.value else none)
    let is_person := existing_p31.any (fun v => HUMAN_CLASSES.contains v)
    let w1 : List String :=
      if NOT_PERSON_VALUES.contains value_raw then
        ["WARNING: \"" ++ (if value_label ≠ "" then value_label else value_raw)
          ++ "\" is a Wikidata internal type, not a valid " ++ prop
          ++ " classification for an entity."]
      else []
    let w2 : List String :=
      if prop = "P279" ∧ is_person = true then
        ["WARNING: P279 (subclass of) is being used on an item that is "
          ++ "an instance of human (Q5). P279 is for classes, not instances. "
          ++ "This is almost certainly an error."]
      else []
    let w3 : List String :=
      if prop = "P31" ∧ HUMAN_CLASSES.contains value_raw
          ∧ ((lookupA claims "P279").map (·.statements)).getD [] ≠ [] then
        ["WARNING: P31 is being set to human (Q5) on an item that "
          ++ "already has P279 (subclass of) claims, suggesting it is a "
          ++ "class, not an instance. Classes should not be instances of human."]
      else []
    w1 ++ w2 ++ w3

/-- `_build_question`: the diff-type-keyed natural-language question
template. -/
def build_question (edit : PrecheckEdit) (parsed : PrecheckParsed) : String :=
  let operation := parsed.operation
  let prop_label := if parsed.property_label ≠ "" then parsed.property_label
                    else parsed.property
  let value_label := if parsed.value_label ≠ "" then parsed.value_label
                     else parsed.value_raw
  let item_label :=
    match (edit.item.map (·.label_en)).join with
    | some l => l
    | none => edit.title.getD "unknown item"
  let diff_type :=
    match edit.edit_diff_type with
    | some t => t
    | none => (lookupA OPERATION_TO_DIFF_TYPE operation).getD "unknown"
  if diff_type = "statement_removed" then
    "Was \"" ++ value_label ++ "\" correctly removed as " ++ prop_label
      ++ " for " ++ item_label ++ "?"
  else if diff_type = "statement_added" then
    "Is \"" ++ value_label ++ "\" a correct " ++ prop_label ++ " for "
      ++ item_label ++ "?"
  else if diff_type = "value_changed" then
    "Is \"" ++ value_label ++ "\" a correct updated " ++ prop_label ++ " for "
      ++ item_label ++ "?"
  else if diff_type = "reference_added" then
    "Does the added reference support the " ++ prop_label ++ " claim for "
      ++ item_label ++ "?"
  else if diff_type = "reference_changed" then
    "Does the updated reference support the " ++ prop_label ++ " claim for "
      ++ item_label ++ "?"
  else if diff_type = "reference_removed" then
    "Was the reference correctly removed from the " ++ prop_label
      ++ " claim for " ++ item_label ++ "?"
  else if diff_type = "qualifier_added" then
    "Is \"" ++ value_label ++ "\" a correct qualifier for the " ++ prop_label
      ++ " claim on " ++ item_label ++ "?"
  else if diff_type = "qualifier_changed" then
    "Is \"" ++ value_label ++ "\" a correct updated qualifier for the "
      ++ prop_label ++ " claim on " ++ item_label ++ "?"
  else if diff_type = "qualifier_removed" then
    "Was the qualifier correctly removed from the " ++ prop_label
      ++ " claim for " ++ item_label ++ "?"
  else if diff_type = "rank_changed" then
    "Is the rank change on the " ++ prop_label ++ " claim correct for "
      ++ item_label ++ "?"
  else
    "Is the edit to " ++ prop_label ++ " (\"" ++ value_label
      ++ "\") correct for " ++ item_label ++ "?"

/-- `make_verification_question`: `none` without a parsed edit, otherwise the
templated question with any ontological warnings appended. -/
def make_verification_question (edit : PrecheckEdit) : Option String :=
  match edit.parsed_edit with
  | none => none
  | some parsed =>
      let question := build_question edit parsed
      match check_ontological_consistency edit with
      | [] => some question
      | ws => some (question ++ "\n\n" ++ String.intercalate "\n" ws)

/-- C10: when the parsed edit summary is absent, or the parsed property is
neither P31 nor P279, `check_ontological_consistency` returns no warnings,
and consequently `make_verification_question` returns the bare templated
question with nothing appended. -/
theorem ontology_warnings_only_p31_p279 (edit : PrecheckEdit)
    (h : edit.parsed_edit = none ∨
        ∃ pe, edit.parsed_edit = some pe ∧ pe.property ≠ "P31" ∧ pe.property ≠ "P279") :
    check_ontological_consistency edit = [] ∧
    make_verification_question edit = edit.parsed_edit.map (build_question edit) := by
  have hempty : check_ontological_consistency edit = [] := by
    unfold check_ontological_consistency
    rcases h with h | ⟨pe, hpe, h1, h2⟩
    · rw [h, if_pos ⟨by decide, by decide⟩]
    · rw [hpe, if_pos ⟨h1, h2⟩]
  refine ⟨hempty, ?_⟩
  unfold make_verification_question
  cases hpe : edit.parsed_edit with
  | none => simp
  | some pe =>
      simp only [hempty]
      simp

/-- Concrete instantiation of C10: an occupation (P106) edit gets no
ontological warnings. -/
theorem ontology_warnings_only_p31_p279_witness :
    check_ontological_consistency
        ⟨some "Q42",
         some ⟨"wbsetclaim-update", "P106", "occupation", "Q117321337", "actor"⟩,
         none, some "value_changed"⟩ = [] :=
  (ontology_warnings_only_p31_p279
      ⟨some "Q42",
       some ⟨"wbsetclaim-update", "P106", "occupation", "Q117321337", "actor"⟩,
       none, some "value_changed"⟩
      (Or.inr ⟨⟨"wbsetclaim-update", "P106", "occupation", "Q117321337", "actor"⟩,
        rfl, by decide, by decide⟩)).1

/-! ## Verdict Orchestrator (run_verdict_fanout.py)

The OpenRouter chat endpoint, the tool executor (`dispatch_tool_call`
including its JSON argument parsing), the JSON parsing of the verdict reply
and the generation-cost endpoint are external I/O, embedded as environment
functions. The shared cancellation flag is embedded as the boolean value
observed at each turn-boundary check (`cancel turn`), the only point at
which the worker reads it. A ghost counter tracks the number of inference
calls actually made. -/

/-- One requested tool call of an assistant message. -/
structure ToolCall where
  id : String
  name : String
  arguments : String
deriving DecidableEq, Repr

/-- A transcript message. -/
inductive Msg where
  | system (content : String)
  | user (content : String)
  | assistant (content : Option String)
  | assistantTools (content : Option String) (tool_calls : List ToolCall)
  | tool (tool_call_id : String) (content : String)
deriving DecidableEq, Repr

/-- One chat-completion response. `usage` carries the SDK-reported
`(prompt_tokens, completion_tokens)` with the source `or 0` defaulting
already applied; `content := none` models a `None` or empty content. -/
structure ChatResponse where
  id : Option String
  finish_reason : String
  content : Option String
  tool_calls : List ToolCall
  usage : Option (Nat × Nat)
deriving DecidableEq, Repr

/-- `fetch_generation_cost` payload on a 200 response. Costs are embedded as
rationals (their floating-point rounding plays no role in any verified
property). -/
structure CostData where
  prompt_tokens : Option Nat
  completion_tokens : Option Nat
  cost_usd : Option Rat
deriving DecidableEq, Repr

/-- One source entry of a parsed verdict. -/
structure SourceEntry where
  url : String
  supports_claim : Bool
  provenance : String
deriving DecidableEq, Repr

/-- The fields of the parsed verdict JSON read by `run_single_verdict`. -/
structure VerdictJson where
  verdict : Option String
  rationale : Option String
  sources : List SourceEntry
deriving DecidableEq, Repr

/-- The external services of one verdict session. `none` from `parseVerdict`
models `json.JSONDecodeError` (or a falsy parse result); `none` from
`genCost` models a non-200 generation-stats response. -/
structure SessionEnv where
  chat : List Msg → ChatResponse
  chatVerdict : List Msg → ChatResponse
  dispatch : ToolCall → String
  parseVerdict : String → Option VerdictJson
  genCost : String → Option CostData
  now : String

/-- `MAX_TURNS`. -/
def MAX_TURNS : Nat := 15

/-- Result of the investigation phase, plus the ghost inference-call count. -/
structure InvResult where
  messages : List Msg
  prompt_tokens : Nat
  completion_tokens : Nat
  response_ids : List String
  status : String
  turns : Nat
  calls : Nat
deriving DecidableEq, Repr

/-- The `for turn in range(MAX_TURNS)` loop of `run_investigation_phase`,
structurally recursive on the remaining turn budget (`turn` is the index of
the current turn, with `turn + remaining = MAX_TURNS`). Before each turn the
cancellation flag is checked; then one completion call is made and the
branch on `finish_reason` either terminates or appends the assistant turn
and every tool result and continues. -/
def run_investigation_loop (chat : List Msg → ChatResponse)
    (dispatch : ToolCall → String) (cancel : Nat → Bool) :
    Nat → Nat → List Msg → Nat → Nat → List String → Nat → InvResult
  | 0, _, messages, pt, ct, ids, calls =>
      ⟨messages, pt, ct, ids, "max_turns", MAX_TURNS, calls⟩
  | remaining + 1, turn, messages, pt, ct, ids, calls =>
      if cancel turn then ⟨messages, pt, ct, ids, "cancelled", turn, calls⟩
      else
        let r := chat messages
        let pt1 := match r.usage with | some u => pt + u.1 | none => pt
        let ct1 := match r.usage with | some u => ct + u.2 | none => ct
        let ids1 := match r.id with | some i => ids ++ [i] | none => ids
        let calls1 := calls + 1
        if r.finish_reason = "stop" then
          ⟨messages ++ [Msg.assistant r.content], pt1, ct1, ids1, "stop", turn + 1, calls1⟩
        else if r.finish_reason = "length" then
          ⟨messages ++ [Msg.assistant r.content], pt1, ct1, ids1, "length", turn + 1, calls1⟩
        else if r.finish_reason = "tool_calls" then
          run_investigation_loop chat dispatch cancel remaining (turn + 1)
            (messages ++ [Msg.assistantTools r.content r.tool_calls]
              ++ r.tool_calls.map (fun tc => Msg.tool tc.id (dispatch tc)))
            pt1 ct1 ids1 calls1
        else
          ⟨messages ++ [Msg.assistant r.content], pt1, ct1, ids1, "stop", turn + 1, calls1⟩

/-- `run_investigation_phase`: run the loop from turn 0 with empty totals. -/
def run_investigation_phase (chat : List Msg → ChatResponse)
    (dispatch : ToolCall → String) (cancel : Nat → Bool) (messages : List Msg) :
    InvResult :=
  run_investigation_loop chat dispatch cancel MAX_TURNS 0 messages 0 0 [] 0

/-- `json.dumps(VERDICT_SCHEMA, indent=2)` as embedded in the verdict
request. -/
def VERDICT_SCHEMA_DUMP : String :=
  "\x7b\n  \"type\": \"object\",\n  \"properties\": \x7b\n    \"verdict\": \x7b\n      \"type\": \"string\",\n      \"enum\": [\n        \"verified-high\",\n        \"verified-low\",\n        \"plausible\",\n        \"unverifiable\",\n        \"suspect\",\n        \"incorrect\"\n      ]\n    \x7d,\n    \"rationale\": \x7b\n      \"type\": \"string\"\n    \x7d,\n    \"sources\": \x7b\n      \"type\": \"array\",\n      \"items\": \x7b\n        \"type\": \"object\",\n        \"properties\": \x7b\n          \"url\": \x7b\n            \"type\": \"string\"\n          \x7d,\n          \"supports_claim\": \x7b\n            \"type\": \"boolean\"\n          \x7d,\n          \"provenance\": \x7b\n            \"type\": \"string\",\n            \"enum\": [\n              \"verified\",\n              \"reported\"\n            ]\n          \x7d\n        \x7d,\n        \"required\": [\n          \"url\",\n          \"supports_claim\",\n          \"provenance\"\n        ]\n      \x7d\n    \x7d\n  \x7d,\n  \"required\": [\n    \"verdict\",\n    \"rationale\",\n    \"sources\"\n  ]\n\x7d"

/-- The verdict-request user message of `run_verdict_phase`. -/
def verdict_request : String :=
  "Based on your investigation, please provide your final verdict as JSON. "
    ++ "Use this exact schema:\n\n" ++ VERDICT_SCHEMA_DUMP
    ++ "\n\nRespond with only valid JSON matching the schema."

/-- `run_verdict_phase`: one tool-free completion constrained to JSON,
returning the parsed verdict (or `none`), SDK token counts, and the
response id. -/
def run_verdict_phase (env : SessionEnv) (messages : List Msg) :
    Option VerdictJson × Nat × Nat × Option String :=
  let msgs := messages ++ [Msg.user verdict_request]
  let r := env.chatVerdict msgs
  let pt := match r.usage with | some u => u.1 | none => 0
  let ct := match r.usage with | some u => u.2 | none => 0
  match r.content with
  | none => (none, pt, ct, r.id)
  | some content => (env.parseVerdict content, pt, ct, r.id)

/-- The per-id summation over `fetch_generation_cost` results: each total
stays `None` until the first priced component appears (`(x or 0) + y`). -/
def sum_generation_costs (genCost : String → Option CostData) (ids : List String) :
    Option Rat × Option Nat × Option Nat :=
  ids.foldl
    (fun acc gid =>
      match genCost gid with
      | none => acc
      | some cd =>
          (match cd.cost_usd with
           | none => acc.1
           | some x => some (acc.1.getD 0 + x),
           match cd.prompt_tokens with
           | none => acc.2.1
           | some x => some (acc.2.1.getD 0 + x),
           match cd.completion_tokens with
           | none => acc.2.2
           | some x => some (acc.2.2.getD 0 + x)))
    (none, none, none)

/-- The view of an enriched edit read by `run_single_verdict`
(`edit.get(...)` of the fields it uses). -/
structure ParsedView where
  property : Option String
  property_label : Option String
  value_label : Option String
deriving DecidableEq, Repr

/-- The enriched edit consumed by the fanout runner. `diff_type` is the value
of `edit.get("edit_diff", ...).get("type", "unknown")` with `none` standing
for the missing-key default. -/
structure FanoutEdit where
  rcid : Option Nat
  revid : Option Nat
  title : Option String
  parsed_edit : Option ParsedView
  diff_type : Option String
deriving DecidableEq, Repr

/-- The verdict record built by `run_single_verdict`. -/
structure VerdictRecord where
  timestamp : String
  model : String
  rcid : Option Nat
  revid : Option Nat
  title : Option String
  property : Option String
  property_label : Option String
  value_label : Option String
  diff_type : String
  finish_status : String
  turns : Nat
  prompt_tokens : Nat
  completion_tokens : Nat
  cost_usd : Option Rat
  verdict : Option String
  rationale : Option String
  sources : List SourceEntry
deriving DecidableEq, Repr

/-- `run_single_verdict`: investigation phase, then the unconditional verdict
phase, then per-generation cost summation with the global SDK-token fallback
(`authoritative or (inv + vrd)`, which also falls back on a zero sum). The
second component is the ghost count of inference calls made by the whole
session. -/
def run_single_verdict (env : SessionEnv) (cancel : Nat → Bool) (model : String)
    (edit : FanoutEdit) (sift_prompt edit_context : String) :
    VerdictRecord × Nat :=
  let initial_messages := [Msg.system sift_prompt, Msg.user edit_context]
  let inv := run_investigation_phase env.chat env.dispatch cancel initial_messages
  let vrd := run_verdict_phase env inv.messages
  let response_ids := inv.response_ids
    ++ (match vrd.2.2.2 with | some i => [i] | none => [])
  let sums := sum_generation_costs env.genCost response_ids
  let total_prompt_tokens :=
    match sums.2.1 with
    | some n => if n = 0 then inv.prompt_tokens + vrd.2.1 else n
    | none => inv.prompt_tokens + vrd.2.1
  let total_completion_tokens :=
    match sums.2.2 with
    | some n => if n = 0 then inv.completion_tokens + vrd.2.2.1 else n
    | none => inv.completion_tokens + vrd.2.2.1
  let record : VerdictRecord :=
    { timestamp := env.now
      model := model
      rcid := edit.rcid
      revid := edit.revid
      title := edit.title
      property := edit.parsed_edit.bind (·.property)
      property_label := edit.parsed_edit.bind (·.property_label)
      value_label := edit.parsed_edit.bind (·.value_label)
      diff_type := edit.diff_type.getD "unknown"
      finish_status := inv.status
      turns := inv.turns
      prompt_tokens := total_prompt_tokens
      completion_tokens := total_completion_tokens
      cost_usd := sums.1
      verdict := vrd.1.bind (·.verdict)
      rationale := vrd.1.bind (·.rationale)
      sources := (vrd.1.map (·.sources)).getD [] }
  (record, inv.calls + 1)

/-! ## Checkpoint & Scheduler (main loop of run_verdict_fanout.py)

One (edit, judge) unit of `main`'s loop is abstracted by its outcome:
`run_with_timeout` returning `(verdict, False)` is `success`, returning
`(None, True)` is `timeout`, and an exception raised out of the unit
(re-raised by `run_with_timeout`) is `error`. The driver state records the
in-memory completed set, the counters, and ghost traces of every verdict
file written and every checkpoint flush (each flush records the set it
persisted). -/

/-- The outcome of one (edit, judge) unit of work. -/
inductive UnitOutcome where
  | success
  | timeout
  | error
deriving DecidableEq, Repr

/-- The driver's mutable state across the main loop. -/
structure DriverState where
  completed : List (Nat × String)
  checkpoint_saves : List (List (Nat × String))
  verdict_saves : List (Nat × String)
  attempts : List (Nat × String)
  skipped_count : Nat
  timeout_count : Nat
  error_count : Nat
  completed_count : Nat
deriving DecidableEq, Repr

/-- `set.add`: append the pair unless already present. -/
def insertPair (l : List (Nat × String)) (p : Nat × String) : List (Nat × String) :=
  if p ∈ l then l else l ++ [p]

/-- One iteration of the main loop for the pair `(rcid, model)`: skip if
already completed; otherwise run the unit and, on success or timeout, save
the verdict, add the pair and flush the checkpoint; on error only count it. -/
def process_pair (outcome : Nat → String → UnitOutcome) (s : DriverState)
    (rcid : Nat) (model : String) : DriverState :=
  if (rcid, model) ∈ s.completed then
    { s with skipped_count := s.skipped_count + 1 }
  else
    match outcome rcid model with
    | .error =>
        { s with attempts := s.attempts ++ [(rcid, model)],
                 error_count := s.error_count + 1 }
    | .timeout =>
        let comp := insertPair s.completed (rcid, model)
        { s with attempts := s.attempts ++ [(rcid, model)],
                 timeout_count := s.timeout_count + 1,
                 verdict_saves := s.verdict_saves ++ [(rcid, model)],
                 completed := comp,
                 checkpoint_saves := s.checkpoint_saves ++ [comp] }
    | .success =>
        let comp := insertPair s.completed (rcid, model)
        { s with attempts := s.attempts ++ [(rcid, model)],
                 completed_count := s.completed_count + 1,
                 verdict_saves := s.verdict_saves ++ [(rcid, model)],
                 completed := comp,
                 checkpoint_saves := s.checkpoint_saves ++ [comp] }

/-- The whole main loop over the interleaved execution order. -/
def run_pairs (outcome : Nat → String → UnitOutcome) (s : DriverState)
    (pairs : List (Nat × String)) : DriverState :=
  pairs.foldl (fun st pair => process_pair outcome st pair.1 pair.2) s

/-- `build_execution_order`: edits outer loop, models inner loop. -/
def build_execution_order {α β : Type} (edits : List α) (models : List β) :
    List (α × β) :=
  edits.foldl (fun pairs edit => pairs ++ models.map (fun m => (edit, m))) []

theorem mem_insertPair_self (l : List (Nat × String)) (p : Nat × String) :
    p ∈ insertPair l p := by
  unfold insertPair
  split
  · assumption
  · simp

/-! ### Claim theorems for the orchestrator and scheduler -/

/-- C1 (counterexample): a unit that raises is only counted: its pair is not
added to the completed set and no checkpoint flush happens, so a resumed run
would reprocess it — refuting the claim that error outcomes are recorded and
flushed like success and timeout. -/
theorem errored_pair_not_checkpointed :
    ((1, "m") ∉ (run_pairs (fun _ _ => .error) ⟨[], [], [], [], 0, 0, 0, 0⟩
        [(1, "m")]).completed) ∧
    (run_pairs (fun _ _ => .error) ⟨[], [], [], [], 0, 0, 0, 0⟩
        [(1, "m")]).checkpoint_saves = [] ∧
    (run_pairs (fun _ _ => .error) ⟨[], [], [], [], 0, 0, 0, 0⟩
        [(1, "m")]).error_count = 1 := by
  decide

/-- C1 (amended): an already-completed pair is skipped outright; a pair
finishing with success or timeout is added to the completed set and the
checkpoint is flushed with exactly that set before the driver advances; a
pair whose unit raises is only counted as an error — it is not recorded and
no checkpoint flush happens, so a resumed run reprocesses it. -/
theorem checkpoint_flushed_after_success_or_timeout
    (outcome : Nat → String → UnitOutcome) (s : DriverState)
    (rcid : Nat) (model : String) :
    ((rcid, model) ∈ s.completed →
        process_pair outcome s rcid model
          = { s with skipped_count := s.skipped_count + 1 }) ∧
    ((rcid, model) ∉ s.completed →
        (outcome rcid model = .success ∨ outcome rcid model = .timeout →
          (rcid, model) ∈ (process_pair outcome s rcid model).completed ∧
          (process_pair outcome s rcid model).checkpoint_saves
            = s.checkpoint_saves ++ [(process_pair outcome s rcid model).completed]) ∧
        (outcome rcid model = .error →
          (process_pair outcome s rcid model).completed = s.completed ∧
          (process_pair outcome s rcid model).checkpoint_saves
            = s.checkpoint_saves)) := by
  constructor
  · intro hmem
    unfold process_pair
    rw [if_pos hmem]
  · intro hmem
    constructor
    · intro hout
      unfold process_pair
      rw [if_neg hmem]
      rcases hout with h | h <;> rw [h] <;>
        exact ⟨mem_insertPair_self s.completed (rcid, model), rfl⟩
    · intro hout
      unfold process_pair
      rw [if_neg hmem, hout]
      exact ⟨rfl, rfl⟩

/-- Concrete instantiation of C1 (amended): a successful unit lands in the
completed set. -/
theorem checkpoint_flushed_after_success_or_timeout_witness :
    (1, "m") ∈ (process_pair (fun _ _ => .success)
        ⟨[], [], [], [], 0, 0, 0, 0⟩ 1 "m").completed :=
  (((checkpoint_flushed_after_success_or_timeout (fun _ _ => .success)
      ⟨[], [], [], [], 0, 0, 0, 0⟩ 1 "m").2 (by decide)).1 (Or.inl rfl)).1

theorem run_investigation_loop_cancelled (chat : List Msg → ChatResponse)
    (dispatch : ToolCall → String) (cancel : Nat → Bool)
    (remaining turn : Nat) (messages : List Msg) (pt ct : Nat)
    (ids : List String) (calls : Nat) (h : cancel turn = true) :
    run_investigation_loop chat dispatch cancel (remaining + 1) turn
        messages pt ct ids calls
      = ⟨messages, pt, ct, ids, "cancelled", turn, calls⟩ := by
  simp [run_investigation_loop, h]

/-- C3 (counterexample): with the cancellation flag set before the first
turn, the investigation makes no call and the record reports `cancelled`,
but the session still runs the verdict phase — one inference call, not
zero — refuting the claim that the whole session makes zero inference
calls. -/
theorem cancelled_session_still_calls_verdict_phase :
    (run_single_verdict
        ⟨fun _ => ⟨some "gv", "stop", some "done", [], some (7, 3)⟩,
         fun _ => ⟨some "gv", "stop", some "done", [], some (7, 3)⟩,
         fun _ => "", fun _ => none, fun _ => none, "t"⟩
        (fun _ => true) "m" ⟨some 1, some 2, some "Q1", none, none⟩
        "p" "c").1.finish_status = "cancelled" ∧
    (run_single_verdict
        ⟨fun _ => ⟨some "gv", "stop", some "done", [], some (7, 3)⟩,
         fun _ => ⟨some "gv", "stop", some "done", [], some (7, 3)⟩,
         fun _ => "", fun _ => none, fun _ => none, "t"⟩
        (fun _ => true) "m" ⟨some 1, some 2, some "Q1", none, none⟩
        "p" "c").2 = 1 := by
  exact ⟨rfl, rfl⟩

/-- C3 (amended): if the cancellation flag is observed set before the first
turn, the investigation phase makes zero inference calls and terminates with
status `cancelled` after zero turns, and the verdict record reports
`cancelled`; the session's unconditional verdict-extraction phase still
makes its single call, so the whole session makes exactly one. -/
theorem cancelled_before_first_turn (env : SessionEnv) (cancel : Nat → Bool)
    (model : String) (edit : FanoutEdit) (sift_prompt edit_context : String)
    (h : cancel 0 = true) :
    (run_investigation_phase env.chat env.dispatch cancel
        [Msg.system sift_prompt, Msg.user edit_context]).calls = 0 ∧
    (run_investigation_phase env.chat env.dispatch cancel
        [Msg.system sift_prompt, Msg.user edit_context]).status = "cancelled" ∧
    (run_single_verdict env cancel model edit sift_prompt edit_context).1.finish_status
      = "cancelled" ∧
    (run_single_verdict env cancel model edit sift_prompt edit_context).2 = 1 := by
  have hloop : run_investigation_phase env.chat env.dispatch cancel
      [Msg.system sift_prompt, Msg.user edit_context]
      = ⟨[Msg.system sift_prompt, Msg.user edit_context], 0, 0, [], "cancelled", 0, 0⟩ := by
    unfold run_investigation_phase
    exact run_investigation_loop_cancelled env.chat env.dispatch cancel 14 0
      [Msg.system sift_prompt, Msg.user edit_context] 0 0 [] 0 h
  refine ⟨by rw [hloop], by rw [hloop], ?_, ?_⟩
  · simp only [run_single_verdict]
    rw [hloop]
  · simp only [run_single_verdict]
    rw [hloop]

/-- Concrete instantiation of C3 (amended). -/
theorem cancelled_before_first_turn_witness :
    (run_investigation_phase
        (fun _ => ⟨some "gv", "stop", some "done", [], some (7, 3)⟩)
        (fun _ => "") (fun _ => true)
        [Msg.system "p", Msg.user "c"]).calls = 0 :=
  (cancelled_before_first_turn
      ⟨fun _ => ⟨some "gv", "stop", some "done", [], some (7, 3)⟩,
       fun _ => ⟨some "gv", "stop", some "done", [], some (7, 3)⟩,
       fun _ => "", fun _ => none, fun _ => none, "t"⟩
      (fun _ => true) "m" ⟨some 1, some 2, some "Q1", none, none⟩ "p" "c" rfl).1

theorem foldl_self_of_step_id {α β : Type} (l : List β) (init : α) :
    l.foldl (fun acc _ => acc) init = init := by
  induction l generalizing init with
  | nil => rfl
  | cons b rest ih => exact ih init

theorem sum_generation_costs_all_unpriced (genCost : String → Option CostData)
    (h : ∀ gid, genCost gid = none) (ids : List String) :
    sum_generation_costs genCost ids = (none, none, none) := by
  unfold sum_generation_costs
  simp only [h]
  exact foldl_self_of_step_id ids (none, none, none)

/-- C5 (counterexample): with two generation ids of which only the
investigation one can be priced (10 prompt / 5 completion tokens) while the
SDK reported 100/40 for the investigation and 200/80 for the verdict phase,
the reported totals are the partial authoritative sums 10/5 — the unpriced
verdict generation's SDK tokens (which the claim says should be added as a
per-phase fallback, giving 210/85) are dropped. -/
theorem partial_pricing_drops_unpriced_phase_tokens :
    (run_single_verdict
        ⟨fun _ => ⟨some "g1", "stop", some "done", [], some (100, 40)⟩,
         fun _ => ⟨some "g2", "stop", some "x", [], some (200, 80)⟩,
         fun _ => "", fun _ => none,
         fun gid => if gid = "g1" then some ⟨some 10, some 5, none⟩ else none, "t"⟩
        (fun _ => false) "m" ⟨some 1, some 2, some "Q1", none, none⟩
        "p" "c").1.prompt_tokens = 10 ∧
    (run_single_verdict
        ⟨fun _ => ⟨some "g1", "stop", some "done", [], some (100, 40)⟩,
         fun _ => ⟨some "g2", "stop", some "x", [], some (200, 80)⟩,
         fun _ => "", fun _ => none,
         fun gid => if gid = "g1" then some ⟨some 10, some 5, none⟩ else none, "t"⟩
        (fun _ => false) "m" ⟨some 1, some 2, some "Q1", none, none⟩
        "p" "c").1.completion_tokens = 5 ∧
    (10 : Nat) ≠ 10 + 200 ∧ (5 : Nat) ≠ 5 + 80 := by
  refine ⟨rfl, rfl, by decide, by decide⟩

/-- C5 (amended): the SDK-token fallback is global, not per-generation: when
the cost endpoint prices none of the session's generation ids, the reported
totals are the sums of the SDK-reported tokens of the two phases and the
cost is absent; when some id is priced, the totals are the partial
authoritative sums (see the counterexample for the dropped remainder). -/
theorem sdk_token_fallback_when_nothing_priced (env : SessionEnv)
    (cancel : Nat → Bool) (model : String) (edit : FanoutEdit)
    (sift_prompt edit_context : String)
    (h : ∀ gid, env.genCost gid = none) :
    (run_single_verdict env cancel model edit sift_prompt edit_context).1.prompt_tokens
      = (run_investigation_phase env.chat env.dispatch cancel
            [Msg.system sift_prompt, Msg.user edit_context]).prompt_tokens
        + (run_verdict_phase env (run_investigation_phase env.chat env.dispatch cancel
            [Msg.system sift_prompt, Msg.user edit_context]).messages).2.1 ∧
    (run_single_verdict env cancel model edit sift_prompt edit_context).1.completion_tokens
      = (run_investigation_phase env.chat env.dispatch cancel
            [Msg.system sift_prompt, Msg.user edit_context]).completion_tokens
        + (run_verdict_phase env (run_investigation_phase env.chat env.dispatch cancel
            [Msg.system sift_prompt, Msg.user edit_context]).messages).2.2.1 ∧
    (run_single_verdict env cancel model edit sift_prompt edit_context).1.cost_usd
      = none := by
  simp only [run_single_verdict]
  rw [sum_generation_costs_all_unpriced env.genCost h]
  exact ⟨rfl, rfl, rfl⟩

/-- Concrete instantiation of C5 (amended). -/
theorem sdk_token_fallback_when_nothing_priced_witness :
    (run_single_verdict
        ⟨fun _ => ⟨some "gv", "stop", some "done", [], some (7, 3)⟩,
         fun _ => ⟨some "gv", "stop", some "done", [], some (7, 3)⟩,
         fun _ => "", fun _ => none, fun _ => none, "t"⟩
        (fun _ => false) "m" ⟨some 1, some 2, some "Q1", none, none⟩
        "p" "c").1.cost_usd = none :=
  (sdk_token_fallback_when_nothing_priced
      ⟨fun _ => ⟨some "gv", "stop", some "done", [], some (7, 3)⟩,
       fun _ => ⟨some "gv", "stop", some "done", [], some (7, 3)⟩,
       fun _ => "", fun _ => none, fun _ => none, "t"⟩
      (fun _ => false) "m" ⟨some 1, some 2, some "Q1", none, none⟩
      "p" "c" (fun _ => rfl)).2.2

end SIFT
